import Mathlib

/-!
# Flight booking system: records, registry and persistence

A shallow embedding of `flight_manager.cpp`.

* The C++ type `int` is embedded as the 32-bit two's-complement integers inside `Int`
  (`InInt32`); a sum or product the program computes is reduced by `wrap32`, the way the
  hardware wraps it around. The only division in the program, `(105 * capacity) / 100`,
  is embedded with `Int.tdiv` (truncation toward zero, as in C++).
* A member function that mutates `*this` becomes a function returning the new record
  (or registry) next to its result.
* The messages a `FlightManager` member function prints are embedded as an `Outcome`.
* `std::ofstream` is embedded as the list of characters written, `std::ifstream` as the
  list of characters still to be read together with the `eofbit` and `failbit` flags.
* The locals `int id, capacity, reserved;` of `FlightBooking::loadFromFile` have no
  initialiser and an extraction that finds the stream exhausted stores nothing; what they
  hold is a parameter of the embedding.
* `newUnbounded` and `reserveSeatsUnbounded` are the constructor and `reserveSeats` as
  the specification words them, over the unbounded integers.
* The loop `while (!in.eof())` need not end (a stream with `failbit` but not `eofbit` stays
  that way), so it is embedded with a bound on its iterations and an optional result.
-/

namespace FlightSystem

/-! ## 32-bit arithmetic -/

/-- The values of a 32-bit `int`. -/
def InInt32 (x : Int) : Prop := -2147483648 ≤ x ∧ x ≤ 2147483647

instance (x : Int) : Decidable (InInt32 x) := by
  unfold InInt32; infer_instance

/-- The 32-bit two's-complement integer congruent to `x` modulo `2 ^ 32`. -/
def wrap32 (x : Int) : Int := (x + 2147483648) % 4294967296 - 2147483648

/-! ## FlightBooking -/

/-- The three private fields of `class FlightBooking`. -/
structure FlightBooking where
  id : Int
  capacity : Int
  reserved : Int
deriving DecidableEq, Repr

namespace FlightBooking

/-- The constructor `FlightBooking(int id, int capacity, int reserved)`. -/
def new (id capacity reserved : Int) : FlightBooking :=
  let capacity := if capacity > 0 then capacity else 0
  let reserved := if reserved > 0 then reserved else 0
  -- Prevent overbooking beyond 105%
  if wrap32 (100 * reserved) > wrap32 (105 * capacity) then
    { id := id, capacity := capacity, reserved := (wrap32 (105 * capacity)).tdiv 100 }
  else
    { id := id, capacity := capacity, reserved := reserved }

def getID (f : FlightBooking) : Int := f.id

def getCapacity (f : FlightBooking) : Int := f.capacity

def getReserved (f : FlightBooking) : Int := f.reserved

/-- The member function `bool reserveSeats(int number_of_seats)`: the returned flag and
the record after the call. -/
def reserveSeats (f : FlightBooking) (number_of_seats : Int) : Bool × FlightBooking :=
  if number_of_seats ≤ 0 ∨
      wrap32 (100 * wrap32 (f.reserved + number_of_seats)) > wrap32 (105 * f.capacity) then
    (false, f)
  else
    (true, { f with reserved := wrap32 (f.reserved + number_of_seats) })

/-- The member function `bool cancelSeats(int number_of_seats)`: the returned flag and
the record after the call. -/
def cancelSeats (f : FlightBooking) (number_of_seats : Int) : Bool × FlightBooking :=
  if number_of_seats ≤ 0 ∨ f.reserved < number_of_seats then
    (false, f)
  else
    (true, { f with reserved := f.reserved - number_of_seats })

end FlightBooking

/-! ## Formatted stream input and output

The parts of `<fstream>` the program uses, for the default `"C"` locale and decimal base:
`out << int`, `out << " "`, `in >> int`, `in.eof()`. -/

/-- The character of a decimal digit `d < 10`. -/
def digitChar (d : Nat) : Char := Char.ofNat (48 + d)

/-- The decimal digits of `n`, most significant first; `fuel` bounds their number. -/
def putNatAux : Nat → Nat → List Char
  | 0, _ => []
  | fuel + 1, n =>
    if n < 10 then [digitChar n] else putNatAux fuel (n / 10) ++ [digitChar (n % 10)]

/-- The decimal digits of `n`. -/
def putNat (n : Nat) : List Char := putNatAux (n + 1) n

/-- The characters `out << x` writes for an `int x`. -/
def putInt : Int → List Char
  | Int.ofNat n => putNat n
  | Int.negSucc n => '-' :: putNat (n + 1)

/-- The classification `std::isspace` of the `"C"` locale. -/
def isSpace (c : Char) : Bool :=
  c = ' ' || c = '\t' || c = '\n' || c = '\x0b' || c = '\x0c' || c = '\r'

/-- The classification `std::isdigit`. -/
def isDigit (c : Char) : Bool := 48 ≤ c.toNat && c.toNat ≤ 57

/-- Discards leading whitespace, as the input sentry does. -/
def skipSpace : List Char → List Char
  | [] => []
  | c :: cs => if isSpace c then skipSpace cs else c :: cs

/-- The value of a run of decimal digits, most significant first. -/
def digitsValue (ds : List Char) : Nat :=
  ds.foldl (fun acc c => 10 * acc + (c.toNat - 48)) 0

/-- An input file stream: the characters not yet read and two of its state flags. -/
structure IStream where
  buf : List Char
  eofbit : Bool
  failbit : Bool
deriving DecidableEq, Repr

namespace IStream

/-- A stream freshly opened on a file with the given contents. -/
def ofText (text : List Char) : IStream := { buf := text, eofbit := false, failbit := false }

def good (s : IStream) : Bool := !s.eofbit && !s.failbit

def eof (s : IStream) : Bool := s.eofbit

/-- The extraction `in >> x` for an `int x` that currently holds `cur`: the stream and the
value of `x` after it.

* On a stream that is not `good()` nothing is read, `failbit` is set and `x` keeps `cur`.
* Leading whitespace is skipped; if that exhausts the input, `eofbit` and `failbit` are set
  and `x` keeps `cur`.
* Otherwise an optional sign and the longest run of digits are consumed; reaching the end
  of the input sets `eofbit`. With no digit `failbit` is set and `x` becomes `0`. A number
  above `INT_MAX` or below `INT_MIN` sets `failbit` and stores that bound in `x`. -/
def extractInt (s : IStream) (cur : Int) : IStream × Int :=
  if !s.good then ({ s with failbit := true }, cur)
  else
    match skipSpace s.buf with
    | [] => ({ buf := [], eofbit := true, failbit := true }, cur)
    | c :: cs =>
      let negative := decide (c = '-')
      let body := if c = '-' ∨ c = '+' then cs else c :: cs
      let ds := body.takeWhile isDigit
      let rest := body.dropWhile isDigit
      let value := if negative then -(digitsValue ds : Int) else (digitsValue ds : Int)
      if ds.isEmpty then ({ buf := rest, eofbit := rest.isEmpty, failbit := true }, 0)
      else if value > 2147483647 then
        ({ buf := rest, eofbit := rest.isEmpty, failbit := true }, 2147483647)
      else if value < -2147483648 then
        ({ buf := rest, eofbit := rest.isEmpty, failbit := true }, -2147483648)
      else ({ buf := rest, eofbit := rest.isEmpty, failbit := false }, value)

end IStream

namespace FlightBooking

/-- The member function `void saveToFile(std::ofstream& out) const`: the contents of `out`
after the call. -/
def saveToFile (f : FlightBooking) (out : List Char) : List Char :=
  out ++ putInt f.id ++ [' '] ++ putInt f.capacity ++ [' '] ++ putInt f.reserved ++ ['\n']

/-- The static member function `FlightBooking loadFromFile(std::ifstream& in)`. Its locals
`id`, `capacity`, `reserved` are declared without an initialiser; `uninit` is what they hold
before the extractions. -/
def loadFromFile (s : IStream) (uninit : Int × Int × Int) : IStream × FlightBooking :=
  let r₁ := s.extractInt uninit.1
  let r₂ := r₁.1.extractInt uninit.2.1
  let r₃ := r₂.1.extractInt uninit.2.2
  (r₃.1, FlightBooking.new r₁.2 r₂.2 r₃.2)

end FlightBooking

/-! ## FlightManager -/

/-- What a `FlightManager` member function reports on `std::cout`. -/
inductive Outcome where
  /-- The "✅" (or "🗑️") message. -/
  | success
  /-- The message "Flight … already exists." -/
  | alreadyExists
  /-- The message "Flight not found." -/
  | notFound
  /-- The message "Cannot reserve (may exceed capacity)." or "Cannot cancel (invalid number)." -/
  | rejected
deriving DecidableEq, Repr

/-- The class `FlightManager`: its only field is `std::vector<FlightBooking> flights`. -/
structure FlightManager where
  flights : List FlightBooking
deriving DecidableEq, Repr

namespace FlightManager

/-- A default-constructed manager. -/
def empty : FlightManager := { flights := [] }

/-- The loop of `createFlight`: whether some record has the given id. -/
def hasID : List FlightBooking → Int → Bool
  | [], _ => false
  | f :: rest, id => if f.getID = id then true else hasID rest id

/-- The member function `void createFlight(int id, int capacity)`. -/
def createFlight (m : FlightManager) (id capacity : Int) : Outcome × FlightManager :=
  if hasID m.flights id then (Outcome.alreadyExists, m)
  else (Outcome.success, { flights := m.flights ++ [FlightBooking.new id capacity 0] })

/-- The loop of `deleteFlight`: erases the first record with the given id, `none` when the
loop ends without a match. -/
def eraseFirst : List FlightBooking → Int → Option (List FlightBooking)
  | [], _ => none
  | f :: rest, id =>
    if f.getID = id then some rest
    else (eraseFirst rest id).map (fun rest' => f :: rest')

/-- The member function `void deleteFlight(int id)`. -/
def deleteFlight (m : FlightManager) (id : Int) : Outcome × FlightManager :=
  match eraseFirst m.flights id with
  | some flights' => (Outcome.success, { flights := flights' })
  | none => (Outcome.notFound, m)

/-- The loop shared by `reserveSeats` and `cancelSeats`: calls the member function `op` on
the first record with the given id and stops; `none` when the loop ends without a match. -/
def updateFirst (op : FlightBooking → Bool × FlightBooking) :
    List FlightBooking → Int → Option (Bool × List FlightBooking)
  | [], _ => none
  | f :: rest, id =>
    if f.getID = id then some ((op f).1, (op f).2 :: rest)
    else (updateFirst op rest id).map (fun r => (r.1, f :: r.2))

/-- The member function `void reserveSeats(int id, int seats)`. -/
def reserveSeats (m : FlightManager) (id seats : Int) : Outcome × FlightManager :=
  match updateFirst (fun f => f.reserveSeats seats) m.flights id with
  | some (true, flights') => (Outcome.success, { flights := flights' })
  | some (false, flights') => (Outcome.rejected, { flights := flights' })
  | none => (Outcome.notFound, m)

/-- The member function `void cancelSeats(int id, int seats)`. -/
def cancelSeats (m : FlightManager) (id seats : Int) : Outcome × FlightManager :=
  match updateFirst (fun f => f.cancelSeats seats) m.flights id with
  | some (true, flights') => (Outcome.success, { flights := flights' })
  | some (false, flights') => (Outcome.rejected, { flights := flights' })
  | none => (Outcome.notFound, m)

/-- The member function `void saveToFile(const std::string& filename) const`: the contents
of the file after the call. -/
def saveToFile (m : FlightManager) : List Char :=
  m.flights.foldl (fun out f => f.saveToFile out) []

/-- The loop `while (!in.eof()) { … }` of `loadFromFile`, run for at most `fuel` iterations;
`none` when the loop has not ended by then. `uninit k` is what the uninitialised locals of
`FlightBooking::loadFromFile` hold in iteration `k`. -/
def loadLoop (uninit : Nat → Int × Int × Int) :
    Nat → Nat → IStream → List FlightBooking → Option (List FlightBooking)
  | 0, _, s, flights => if s.eof then some flights else none
  | fuel + 1, k, s, flights =>
    if s.eof then some flights
    else
      let r := FlightBooking.loadFromFile s (uninit k)
      loadLoop uninit fuel (k + 1) r.1 (if r.2.getID ≠ 0 then flights ++ [r.2] else flights)

/-- The member function `void loadFromFile(const std::string& filename)`. `file` is the
contents of the named file, `none` when it cannot be opened. The result is `none` when the
loop does not end within `fuel` iterations. -/
def loadFromFile (m : FlightManager) (file : Option (List Char))
    (uninit : Nat → Int × Int × Int) (fuel : Nat) : Option FlightManager :=
  match file with
  | none => some m
  | some text =>
    (loadLoop uninit fuel 0 (IStream.ofText text) []).map (fun flights => { flights := flights })

end FlightManager

/-! ## Invariants of the registry -/

/-- No two records of the list share an id. -/
def UniqueIDs (flights : List FlightBooking) : Prop :=
  flights.Pairwise (fun a b => a.id ≠ b.id)

/-! ## Call sequences -/

/-- One call of a registry operation that changes `flights` without touching a file. -/
inductive Command where
  | createFlight (id capacity : Int)
  | deleteFlight (id : Int)
  | reserveSeats (id seats : Int)
  | cancelSeats (id seats : Int)

namespace FlightManager

/-- The registry after one call. -/
def exec (m : FlightManager) : Command → FlightManager
  | Command.createFlight id capacity => (m.createFlight id capacity).2
  | Command.deleteFlight id => (m.deleteFlight id).2
  | Command.reserveSeats id seats => (m.reserveSeats id seats).2
  | Command.cancelSeats id seats => (m.cancelSeats id seats).2

/-- The registry after a sequence of calls, first call first. -/
def run (m : FlightManager) (cs : List Command) : FlightManager := cs.foldl exec m

end FlightManager

/-! ## Records -/

theorem wrap32_of_inInt32 (x : Int) (h : InInt32 x) : wrap32 x = x := by
  unfold InInt32 at h
  unfold wrap32
  omega

theorem wrap32_inInt32 (x : Int) : InInt32 (wrap32 x) := by
  unfold InInt32 wrap32
  omega

theorem FlightBooking.reserveSeats_fst (f : FlightBooking) (n : Int) :
    (f.reserveSeats n).1 = true ↔
      ¬(n ≤ 0 ∨ wrap32 (100 * wrap32 (f.reserved + n)) > wrap32 (105 * f.capacity)) := by
  unfold FlightBooking.reserveSeats
  split <;> simp_all

theorem FlightBooking.cancelSeats_fst (f : FlightBooking) (n : Int) :
    (f.cancelSeats n).1 = true ↔ ¬(n ≤ 0 ∨ f.reserved < n) := by
  unfold FlightBooking.cancelSeats
  split <;> simp_all

/-- C2 fails on the code: on the record `(1, 1, 0)` the call `reserveSeats(42949673)` returns
true and stores `42949673`, although `100 * (reserved + n) > 105 * capacity`, because the
product wraps around to `4`; and on the record `(1, 30000000, -11449672)`, which
`createFlight(1, 30000000)` leaves, `reserveSeats(1)` returns false although `n > 0` and
`100 * (reserved + n) ≤ 105 * capacity`, because `105 * capacity` wraps around to a
negative number. -/
theorem FlightBooking.reserveSeats_guard_wraps :
    (FlightBooking.mk 1 1 0).reserveSeats 42949673
      = (true, { id := 1, capacity := 1, reserved := 42949673 }) ∧
    100 * ((FlightBooking.mk 1 1 0).reserved + 42949673) > 105 * (FlightBooking.mk 1 1 0).capacity ∧
    FlightBooking.new 1 30000000 0 = { id := 1, capacity := 30000000, reserved := -11449672 } ∧
    (FlightBooking.mk 1 30000000 (-11449672)).reserveSeats 1
      = (false, { id := 1, capacity := 30000000, reserved := -11449672 }) ∧
    ((0 : Int) < 1 ∧
      100 * ((FlightBooking.mk 1 30000000 (-11449672)).reserved + 1)
        ≤ 105 * (FlightBooking.mk 1 30000000 (-11449672)).capacity) := by
  decide

/-- C3: `cancelSeats n` returns false and leaves the record unchanged exactly when `n ≤ 0`
or `n > reserved`; exactly in the other cases it returns true and the record afterwards is
the old one with `reserved - n` for `reserved`, which is then non-negative. -/
theorem FlightBooking.cancelSeats_spec (f : FlightBooking) (n : Int) :
    (((f.cancelSeats n).1 = false ∧ (f.cancelSeats n).2 = f) ↔ (n ≤ 0 ∨ n > f.reserved)) ∧
    (((f.cancelSeats n).1 = true ∧
        (f.cancelSeats n).2 = { f with reserved := f.reserved - n } ∧
        0 ≤ (f.cancelSeats n).2.reserved) ↔
      ¬(n ≤ 0 ∨ n > f.reserved)) := by
  unfold FlightBooking.cancelSeats
  split
  · simp_all
  · rename_i h
    simp only [not_or, not_le, not_lt] at h
    simp only [true_and, Bool.true_eq_false, false_and, false_iff, not_or, not_le, not_lt,
      gt_iff_lt]
    omega

/-- C4 fails on the code: `FlightBooking(1, 20452226, 0)` stores `reserved = -21474835`,
because `105 * capacity` wraps around to a negative number and the reset branch is taken;
and `FlightBooking(1, 100, 42949673)` keeps `reserved = 42949673`, far above
`floor(105 * 100 / 100) = 105`, because `100 * reserved` wraps around to `4`. -/
theorem FlightBooking.new_reset_wraps :
    FlightBooking.new 1 20452226 0 = { id := 1, capacity := 20452226, reserved := -21474835 } ∧
    wrap32 (105 * 20452226) = -2147483566 ∧
    FlightBooking.new 1 100 42949673 = { id := 1, capacity := 100, reserved := 42949673 } ∧
    wrap32 (100 * 42949673) = 4 ∧
    (100 : Int) * max 42949673 0 > 105 * max 100 0 ∧
    (105 * max 100 0 : Int).fdiv 100 = 105 := by
  decide

theorem FlightBooking.new_id (i c r : Int) : (FlightBooking.new i c r).id = i := by
  unfold FlightBooking.new; simp only; split_ifs <;> rfl

theorem FlightBooking.new_capacity (i c r : Int) :
    (FlightBooking.new i c r).capacity = max c 0 := by
  unfold FlightBooking.new; simp only
  split_ifs <;> simp only <;> omega

theorem tdiv_hundred_nonpos (a : Int) (h : a ≤ 0) : a.tdiv 100 ≤ 0 := by
  have h1 : (-(-a)).tdiv 100 = -((-a).tdiv 100) := Int.neg_tdiv (-a) 100
  rw [neg_neg] at h1
  have h2 : 0 ≤ (-a).tdiv 100 := Int.tdiv_nonneg (by omega) (by norm_num)
  omega

theorem FlightBooking.new_zero_reserved (i c : Int) : (FlightBooking.new i c 0).reserved ≤ 0 := by
  have h0 : wrap32 0 = 0 := by decide
  unfold FlightBooking.new
  simp only [lt_self_iff_false, gt_iff_lt, if_false, mul_zero, h0]
  split_ifs with h1 h2 h3
  · exact tdiv_hundred_nonpos _ (le_of_lt h2)
  · exact le_refl 0
  · exact tdiv_hundred_nonpos _ (le_of_lt h3)
  · exact le_refl 0

/-- C10: on a record whose `reserved` is a 32-bit `int`, when `cancelSeats n` succeeds and
the `reserveSeats n` that follows it succeeds too, the record is again what it was before
the cancellation. -/
theorem FlightBooking.cancel_then_reserve (f : FlightBooking) (n : Int)
    (hint : InInt32 f.reserved)
    (hc : (f.cancelSeats n).1 = true)
    (hr : ((f.cancelSeats n).2.reserveSeats n).1 = true) :
    ((f.cancelSeats n).2.reserveSeats n).2 = f := by
  have h1 := (FlightBooking.cancelSeats_fst f n).1 hc
  have e1 : (f.cancelSeats n).2 = { f with reserved := f.reserved - n } := by
    unfold FlightBooking.cancelSeats; rw [if_neg h1]
  have h2 := (FlightBooking.reserveSeats_fst _ n).1 hr
  unfold FlightBooking.reserveSeats
  rw [if_neg h2, e1]
  cases f
  simp only [sub_add_cancel] at hint ⊢
  rw [wrap32_of_inInt32 _ hint]

theorem FlightBooking.cancel_then_reserve_witness :
    InInt32 (FlightBooking.mk 1 100 40).reserved ∧
    ((FlightBooking.mk 1 100 40).cancelSeats 15).1 = true ∧
    ((((FlightBooking.mk 1 100 40).cancelSeats 15).2).reserveSeats 15).1 = true ∧
    ((((FlightBooking.mk 1 100 40).cancelSeats 15).2).reserveSeats 15).2 =
      FlightBooking.mk 1 100 40 :=
  ⟨by decide, by decide, by decide,
    FlightBooking.cancel_then_reserve (FlightBooking.mk 1 100 40) 15 (by decide) (by decide)
      (by decide)⟩

/-! ## Registry loops -/

theorem FlightManager.hasID_eq_true (flights : List FlightBooking) (id : Int) :
    FlightManager.hasID flights id = true ↔ ∃ f ∈ flights, f.id = id := by
  induction flights with
  | nil => simp [FlightManager.hasID]
  | cons f rest ih =>
    by_cases h : f.id = id
    · simp [FlightManager.hasID, FlightBooking.getID, h]
    · simp [FlightManager.hasID, FlightBooking.getID, h, ih]

theorem FlightManager.eraseFirst_eq_none (flights : List FlightBooking) (id : Int) :
    FlightManager.eraseFirst flights id = none ↔ ∀ f ∈ flights, f.id ≠ id := by
  induction flights with
  | nil => simp [FlightManager.eraseFirst]
  | cons f rest ih =>
    by_cases h : f.id = id
    · simp [FlightManager.eraseFirst, FlightBooking.getID, h]
    · simp [FlightManager.eraseFirst, FlightBooking.getID, h, ih]

theorem FlightManager.eraseFirst_eq_some (flights flights' : List FlightBooking) (id : Int)
    (h : FlightManager.eraseFirst flights id = some flights') :
    ∃ pre f post, flights = pre ++ f :: post ∧ (∀ g ∈ pre, g.id ≠ id) ∧ f.id = id ∧
      flights' = pre ++ post := by
  induction flights generalizing flights' with
  | nil => simp [FlightManager.eraseFirst] at h
  | cons f rest ih =>
    by_cases hf : f.id = id
    · simp only [FlightManager.eraseFirst, FlightBooking.getID, hf, if_true,
        Option.some.injEq] at h
      exact ⟨[], f, rest, rfl, by simp, hf, by simp [h]⟩
    · simp only [FlightManager.eraseFirst, FlightBooking.getID, hf, if_false,
        Option.map_eq_some'] at h
      obtain ⟨rest', hrest, rfl⟩ := h
      obtain ⟨pre, g, post, rfl, hpre, hg, rfl⟩ := ih rest' hrest
      refine ⟨f :: pre, g, post, rfl, ?_, hg, rfl⟩
      intro x hx
      rcases List.mem_cons.1 hx with rfl | hx
      · exact hf
      · exact hpre x hx

theorem FlightManager.updateFirst_eq_none (op : FlightBooking → Bool × FlightBooking)
    (flights : List FlightBooking) (id : Int) :
    FlightManager.updateFirst op flights id = none ↔ ∀ f ∈ flights, f.id ≠ id := by
  induction flights with
  | nil => simp [FlightManager.updateFirst]
  | cons f rest ih =>
    by_cases h : f.id = id
    · simp [FlightManager.updateFirst, FlightBooking.getID, h]
    · simp [FlightManager.updateFirst, FlightBooking.getID, h, ih]

theorem FlightManager.updateFirst_eq_some (op : FlightBooking → Bool × FlightBooking)
    (flights : List FlightBooking) (id : Int) (r : Bool × List FlightBooking)
    (h : FlightManager.updateFirst op flights id = some r) :
    ∃ pre f post, flights = pre ++ f :: post ∧ (∀ g ∈ pre, g.id ≠ id) ∧ f.id = id ∧
      r = ((op f).1, pre ++ (op f).2 :: post) := by
  induction flights generalizing r with
  | nil => simp [FlightManager.updateFirst] at h
  | cons f rest ih =>
    by_cases hf : f.id = id
    · simp only [FlightManager.updateFirst, FlightBooking.getID, hf, if_true,
        Option.some.injEq] at h
      exact ⟨[], f, rest, rfl, by simp, hf, by simp [← h]⟩
    · simp only [FlightManager.updateFirst, FlightBooking.getID, hf, if_false,
        Option.map_eq_some'] at h
      obtain ⟨r', hr', rfl⟩ := h
      obtain ⟨pre, g, post, rfl, hpre, hg, rfl⟩ := ih r' hr'
      refine ⟨f :: pre, g, post, rfl, ?_, hg, rfl⟩
      intro x hx
      rcases List.mem_cons.1 hx with rfl | hx
      · exact hf
      · exact hpre x hx

/-- The two cases of `createFlight`. -/
theorem FlightManager.createFlight_cases (m : FlightManager) (id capacity : Int) :
    ((∃ f ∈ m.flights, f.id = id) ∧
      m.createFlight id capacity = (Outcome.alreadyExists, m)) ∨
    ((∀ f ∈ m.flights, f.id ≠ id) ∧
      m.createFlight id capacity =
        (Outcome.success, { flights := m.flights ++ [FlightBooking.new id capacity 0] })) := by
  by_cases h : FlightManager.hasID m.flights id = true
  · left
    exact ⟨(FlightManager.hasID_eq_true _ _).1 h, by simp [FlightManager.createFlight, h]⟩
  · right
    refine ⟨?_, ?_⟩
    · intro f hf hid
      exact h ((FlightManager.hasID_eq_true _ _).2 ⟨f, hf, hid⟩)
    · simp [FlightManager.createFlight, h]

/-- The two cases of `deleteFlight`. -/
theorem FlightManager.deleteFlight_cases (m : FlightManager) (id : Int) :
    ((∀ f ∈ m.flights, f.id ≠ id) ∧ m.deleteFlight id = (Outcome.notFound, m)) ∨
    (∃ pre f post, m.flights = pre ++ f :: post ∧ (∀ g ∈ pre, g.id ≠ id) ∧ f.id = id ∧
      m.deleteFlight id = (Outcome.success, { flights := pre ++ post })) := by
  cases h : FlightManager.eraseFirst m.flights id with
  | none =>
    left
    exact ⟨(FlightManager.eraseFirst_eq_none _ _).1 h, by simp [FlightManager.deleteFlight, h]⟩
  | some flights' =>
    right
    obtain ⟨pre, f, post, h1, h2, h3, rfl⟩ := FlightManager.eraseFirst_eq_some _ _ _ h
    exact ⟨pre, f, post, h1, h2, h3, by simp [FlightManager.deleteFlight, h]⟩

/-- C5 fails on the code: `createFlight(1, 30000000)` on the empty registry appends the
record `(1, 30000000, -11449672)`, not one with `reserved = 0`: in the constructor
`105 * capacity` wraps around to a negative number and the reset branch is taken. -/
theorem FlightManager.createFlight_negative_reserved :
    FlightManager.empty.createFlight 1 30000000
      = (Outcome.success,
          { flights := [{ id := 1, capacity := 30000000, reserved := -11449672 }] }) ∧
    wrap32 (105 * 30000000) = -1144967296 := by
  decide

/-- C7: `deleteFlight id` reports "not found" and leaves the registry unchanged when no
record has this id; otherwise it removes exactly the first record with this id and keeps
all others, unmodified and in their order. -/
theorem FlightManager.deleteFlight_spec (m : FlightManager) (id : Int) :
    ((∀ f ∈ m.flights, f.id ≠ id) ∧ m.deleteFlight id = (Outcome.notFound, m)) ∨
    (∃ pre f post, m.flights = pre ++ f :: post ∧ (∀ g ∈ pre, g.id ≠ id) ∧ f.id = id ∧
      m.deleteFlight id = (Outcome.success, { flights := pre ++ post })) :=
  FlightManager.deleteFlight_cases m id

theorem FlightManager.reserveSeats_cases (m : FlightManager) (id seats : Int) :
    ((∀ f ∈ m.flights, f.id ≠ id) ∧ m.reserveSeats id seats = (Outcome.notFound, m)) ∨
    (∃ pre f post, m.flights = pre ++ f :: post ∧ (∀ g ∈ pre, g.id ≠ id) ∧ f.id = id ∧
      m.reserveSeats id seats =
        (if (f.reserveSeats seats).1 then Outcome.success else Outcome.rejected,
          { flights := pre ++ (f.reserveSeats seats).2 :: post })) := by
  cases h : FlightManager.updateFirst (fun f => f.reserveSeats seats) m.flights id with
  | none =>
    left
    exact ⟨(FlightManager.updateFirst_eq_none _ _ _).1 h, by simp [FlightManager.reserveSeats, h]⟩
  | some r =>
    right
    obtain ⟨pre, f, post, h1, h2, h3, rfl⟩ := FlightManager.updateFirst_eq_some _ _ _ _ h
    refine ⟨pre, f, post, h1, h2, h3, ?_⟩
    simp only [FlightManager.reserveSeats, h]
    cases (f.reserveSeats seats).1 <;> simp

theorem FlightManager.cancelSeats_cases (m : FlightManager) (id seats : Int) :
    ((∀ f ∈ m.flights, f.id ≠ id) ∧ m.cancelSeats id seats = (Outcome.notFound, m)) ∨
    (∃ pre f post, m.flights = pre ++ f :: post ∧ (∀ g ∈ pre, g.id ≠ id) ∧ f.id = id ∧
      m.cancelSeats id seats =
        (if (f.cancelSeats seats).1 then Outcome.success else Outcome.rejected,
          { flights := pre ++ (f.cancelSeats seats).2 :: post })) := by
  cases h : FlightManager.updateFirst (fun f => f.cancelSeats seats) m.flights id with
  | none =>
    left
    exact ⟨(FlightManager.updateFirst_eq_none _ _ _).1 h, by simp [FlightManager.cancelSeats, h]⟩
  | some r =>
    right
    obtain ⟨pre, f, post, h1, h2, h3, rfl⟩ := FlightManager.updateFirst_eq_some _ _ _ _ h
    refine ⟨pre, f, post, h1, h2, h3, ?_⟩
    simp only [FlightManager.cancelSeats, h]
    cases (f.cancelSeats seats).1 <;> simp

theorem FlightBooking.reserveSeats_frame (f : FlightBooking) (n : Int) :
    (f.reserveSeats n).2.id = f.id ∧ (f.reserveSeats n).2.capacity = f.capacity := by
  unfold FlightBooking.reserveSeats; split <;> simp

theorem FlightBooking.cancelSeats_frame (f : FlightBooking) (n : Int) :
    (f.cancelSeats n).2.id = f.id ∧ (f.cancelSeats n).2.capacity = f.capacity := by
  unfold FlightBooking.cancelSeats; split <;> simp

/-- C8: `reserveSeats id seats` and `cancelSeats id seats` report "not found" and leave the
registry unchanged when no record has this id; otherwise the outcome is success or
"rejected" as the first matching record's member function returns true or false, that record
is replaced by what the member function leaves (same id and capacity), and every other
record, the number of records and their order stay as they were. -/
theorem FlightManager.reserve_cancel_spec (m : FlightManager) (id seats : Int) :
    (((∀ f ∈ m.flights, f.id ≠ id) ∧ m.reserveSeats id seats = (Outcome.notFound, m)) ∨
     (∃ pre f post, m.flights = pre ++ f :: post ∧ (∀ g ∈ pre, g.id ≠ id) ∧ f.id = id ∧
        m.reserveSeats id seats =
          (if (f.reserveSeats seats).1 then Outcome.success else Outcome.rejected,
            { flights := pre ++ (f.reserveSeats seats).2 :: post }) ∧
        (f.reserveSeats seats).2.id = f.id ∧
        (f.reserveSeats seats).2.capacity = f.capacity)) ∧
    (((∀ f ∈ m.flights, f.id ≠ id) ∧ m.cancelSeats id seats = (Outcome.notFound, m)) ∨
     (∃ pre f post, m.flights = pre ++ f :: post ∧ (∀ g ∈ pre, g.id ≠ id) ∧ f.id = id ∧
        m.cancelSeats id seats =
          (if (f.cancelSeats seats).1 then Outcome.success else Outcome.rejected,
            { flights := pre ++ (f.cancelSeats seats).2 :: post }) ∧
        (f.cancelSeats seats).2.id = f.id ∧
        (f.cancelSeats seats).2.capacity = f.capacity)) := by
  constructor
  · rcases FlightManager.reserveSeats_cases m id seats with h | ⟨pre, f, post, h1, h2, h3, h4⟩
    · exact Or.inl h
    · exact Or.inr ⟨pre, f, post, h1, h2, h3, h4, FlightBooking.reserveSeats_frame f seats⟩
  · rcases FlightManager.cancelSeats_cases m id seats with h | ⟨pre, f, post, h1, h2, h3, h4⟩
    · exact Or.inl h
    · exact Or.inr ⟨pre, f, post, h1, h2, h3, h4, FlightBooking.cancelSeats_frame f seats⟩


/-! ## Uniqueness of ids -/

theorem UniqueIDs.replace_same_id {pre post : List FlightBooking} {f g : FlightBooking}
    (h : UniqueIDs (pre ++ f :: post)) (hg : g.id = f.id) :
    UniqueIDs (pre ++ g :: post) := by
  unfold UniqueIDs at *
  have e : (pre ++ g :: post).map (fun x => x.id) = (pre ++ f :: post).map (fun x => x.id) := by
    simp [hg]
  have h' : ((pre ++ f :: post).map (fun x => x.id)).Pairwise (fun a b => a ≠ b) :=
    List.pairwise_map.2 h
  rw [← e] at h'
  exact List.pairwise_map.1 h'

theorem FlightManager.exec_uniqueIDs (m : FlightManager) (c : Command)
    (h : UniqueIDs m.flights) : UniqueIDs (m.exec c).flights := by
  cases c with
  | createFlight id capacity =>
    simp only [FlightManager.exec]
    rcases FlightManager.createFlight_cases m id capacity with ⟨-, h2⟩ | ⟨h1, h2⟩
    · rw [h2]; exact h
    · rw [h2]
      unfold UniqueIDs at *
      rw [List.pairwise_append]
      refine ⟨h, List.pairwise_singleton _ _, ?_⟩
      intro a ha b hb
      simp only [List.mem_singleton] at hb
      subst hb
      rw [FlightBooking.new_id]
      exact h1 a ha
  | deleteFlight id =>
    simp only [FlightManager.exec]
    rcases FlightManager.deleteFlight_cases m id with ⟨-, h2⟩ | ⟨pre, f, post, h1, -, -, h4⟩
    · rw [h2]; exact h
    · rw [h4]
      unfold UniqueIDs at *
      rw [h1] at h
      exact h.sublist (List.Sublist.append_left (List.sublist_cons_self f post) pre)
  | reserveSeats id seats =>
    simp only [FlightManager.exec]
    rcases FlightManager.reserveSeats_cases m id seats with
      ⟨-, h2⟩ | ⟨pre, f, post, h1, -, -, h4⟩
    · rw [h2]; exact h
    · rw [h4]
      rw [h1] at h
      exact h.replace_same_id (FlightBooking.reserveSeats_frame f seats).1
  | cancelSeats id seats =>
    simp only [FlightManager.exec]
    rcases FlightManager.cancelSeats_cases m id seats with
      ⟨-, h2⟩ | ⟨pre, f, post, h1, -, -, h4⟩
    · rw [h2]; exact h
    · rw [h4]
      rw [h1] at h
      exact h.replace_same_id (FlightBooking.cancelSeats_frame f seats).1

theorem FlightManager.run_uniqueIDs (cs : List Command) (m : FlightManager)
    (h : UniqueIDs m.flights) : UniqueIDs (m.run cs).flights := by
  induction cs generalizing m with
  | nil => exact h
  | cons c rest ih => exact ih (m.exec c) (FlightManager.exec_uniqueIDs m c h)

/-- C6: after any finite sequence of `createFlight`, `deleteFlight`, `reserveSeats` and
`cancelSeats` calls on the empty registry, no two records of the registry share an id. -/
theorem FlightManager.unique_ids (cs : List Command) :
    (FlightManager.empty.run cs).flights.Pairwise (fun a b => a.id ≠ b.id) :=
  FlightManager.run_uniqueIDs cs FlightManager.empty List.Pairwise.nil


/-! ## A freshly created flight -/

theorem FlightManager.updateFirst_fresh (op : FlightBooking → Bool × FlightBooking)
    (pre post : List FlightBooking) (g : FlightBooking) (id : Int)
    (hpre : ∀ f ∈ pre, f.id ≠ id) (hg : g.id = id) :
    FlightManager.updateFirst op (pre ++ g :: post) id
      = some ((op g).1, pre ++ (op g).2 :: post) := by
  induction pre with
  | nil => simp [FlightManager.updateFirst, FlightBooking.getID, hg]
  | cons f rest ih =>
    have hf : f.id ≠ id := hpre f (by simp)
    have := ih (fun x hx => hpre x (by simp [hx]))
    simp [FlightManager.updateFirst, FlightBooking.getID, hf, this]

theorem FlightManager.createFlight_fresh (m : FlightManager) (id c : Int)
    (h : ∀ f ∈ m.flights, f.id ≠ id) :
    m.createFlight id c
      = (Outcome.success, { flights := m.flights ++ [FlightBooking.new id c 0] }) := by
  rcases FlightManager.createFlight_cases m id c with ⟨⟨f, hf, hid⟩, -⟩ | ⟨-, h2⟩
  · exact absurd hid (h f hf)
  · exact h2

theorem FlightManager.reserveSeats_fresh (pre post : List FlightBooking) (g : FlightBooking)
    (id n : Int) (hpre : ∀ f ∈ pre, f.id ≠ id) (hg : g.id = id) :
    FlightManager.reserveSeats { flights := pre ++ g :: post } id n
      = (if (g.reserveSeats n).1 then Outcome.success else Outcome.rejected,
          { flights := pre ++ (g.reserveSeats n).2 :: post }) := by
  simp only [FlightManager.reserveSeats,
    FlightManager.updateFirst_fresh (fun f => f.reserveSeats n) pre post g id hpre hg]
  cases (g.reserveSeats n).1 <;> simp

theorem FlightManager.cancelSeats_fresh (pre post : List FlightBooking) (g : FlightBooking)
    (id n : Int) (hpre : ∀ f ∈ pre, f.id ≠ id) (hg : g.id = id) :
    FlightManager.cancelSeats { flights := pre ++ g :: post } id n
      = (if (g.cancelSeats n).1 then Outcome.success else Outcome.rejected,
          { flights := pre ++ (g.cancelSeats n).2 :: post }) := by
  simp only [FlightManager.cancelSeats,
    FlightManager.updateFirst_fresh (fun f => f.cancelSeats n) pre post g id hpre hg]
  cases (g.cancelSeats n).1 <;> simp

theorem FlightBooking.cancelSeats_eq_false (f : FlightBooking) (n : Int)
    (h : n ≤ 0 ∨ f.reserved < n) : f.cancelSeats n = (false, f) := by
  unfold FlightBooking.cancelSeats; rw [if_pos h]

/-- C13: in a registry reached from the empty one by `createFlight`, `deleteFlight`,
`reserveSeats` and `cancelSeats` calls, after a successful `deleteFlight id` no record has
this id, and a repeated `deleteFlight id`, a `reserveSeats id n` and a `cancelSeats id n`
each report "not found" and change nothing; and on a flight freshly created by
`createFlight id₂ c`, `cancelSeats id₂ n` is rejected for every `n` and changes nothing. -/
theorem FlightManager.delete_is_final (cs : List Command) (id id₂ c n : Int) :
    (((FlightManager.empty.run cs).deleteFlight id).1 = Outcome.success →
      (∀ f ∈ ((FlightManager.empty.run cs).deleteFlight id).2.flights, f.id ≠ id) ∧
      ((FlightManager.empty.run cs).deleteFlight id).2.deleteFlight id
        = (Outcome.notFound, ((FlightManager.empty.run cs).deleteFlight id).2) ∧
      ((FlightManager.empty.run cs).deleteFlight id).2.reserveSeats id n
        = (Outcome.notFound, ((FlightManager.empty.run cs).deleteFlight id).2) ∧
      ((FlightManager.empty.run cs).deleteFlight id).2.cancelSeats id n
        = (Outcome.notFound, ((FlightManager.empty.run cs).deleteFlight id).2)) ∧
    ((∀ f ∈ (FlightManager.empty.run cs).flights, f.id ≠ id₂) →
      ((FlightManager.empty.run cs).createFlight id₂ c).2.cancelSeats id₂ n
        = (Outcome.rejected, ((FlightManager.empty.run cs).createFlight id₂ c).2)) := by
  constructor
  · intro hdel
    have huniq : UniqueIDs (FlightManager.empty.run cs).flights :=
      FlightManager.run_uniqueIDs cs FlightManager.empty List.Pairwise.nil
    rcases FlightManager.deleteFlight_cases (FlightManager.empty.run cs) id with
      ⟨-, h2⟩ | ⟨pre, f, post, h1, hpre, hf, h4⟩
    · rw [h2] at hdel; simp at hdel
    · rw [h4]
      simp only
      have hpost : ∀ g ∈ post, g.id ≠ id := by
        unfold UniqueIDs at huniq
        rw [h1, List.pairwise_append] at huniq
        obtain ⟨-, hcons, -⟩ := huniq
        rw [List.pairwise_cons] at hcons
        intro g hg hgid
        exact hcons.1 g hg (by rw [hf, hgid])
      have hnone : ∀ g ∈ pre ++ post, g.id ≠ id := by
        intro g hg
        rcases List.mem_append.1 hg with hg | hg
        · exact hpre g hg
        · exact hpost g hg
      refine ⟨hnone, ?_, ?_, ?_⟩
      · simp [FlightManager.deleteFlight, (FlightManager.eraseFirst_eq_none _ id).2 hnone]
      · simp [FlightManager.reserveSeats, (FlightManager.updateFirst_eq_none _ _ id).2 hnone]
      · simp [FlightManager.cancelSeats, (FlightManager.updateFirst_eq_none _ _ id).2 hnone]
  · intro hfresh
    rw [FlightManager.createFlight_fresh _ id₂ c hfresh]
    simp only
    have hres := FlightBooking.new_zero_reserved id₂ c
    rw [FlightManager.cancelSeats_fresh _ [] _ id₂ n hfresh (FlightBooking.new_id id₂ c 0),
      FlightBooking.cancelSeats_eq_false _ n (by omega)]
    simp

theorem FlightManager.delete_is_final_witness :
    (FlightManager.empty.run [Command.createFlight 3 50, Command.createFlight 3 10]).flights
      = [{ id := 3, capacity := 50, reserved := 0 }] ∧
    (FlightManager.empty.createFlight 3 50).2.cancelSeats 3 1
      = (Outcome.rejected, (FlightManager.empty.createFlight 3 50).2) ∧
    ((FlightManager.empty.run [Command.createFlight 3 50, Command.createFlight 3 10]).deleteFlight
      3).1 = Outcome.success ∧
    ((FlightManager.empty.run [Command.createFlight 3 50,
      Command.createFlight 3 10]).deleteFlight 3).2.deleteFlight 3
      = (Outcome.notFound,
          ((FlightManager.empty.run [Command.createFlight 3 50,
            Command.createFlight 3 10]).deleteFlight 3).2) :=
  ⟨by decide,
    (FlightManager.delete_is_final [] 3 3 50 1).2 (by decide),
    by decide,
    ((FlightManager.delete_is_final [Command.createFlight 3 50, Command.createFlight 3 10]
      3 3 50 1).1 (by decide)).2.1⟩

/-! ## Loading a file with a repeated id -/

/-- C14 fails on the code: `loadFromFile` on a file with the two lines "1 10 0" and "1 20 0"
returns a registry whose two records both have id `1`; unlike `createFlight`, it appends a
record without looking for one with the same id. -/
theorem FlightManager.loadFromFile_repeats_id :
    FlightManager.empty.loadFromFile (some "1 10 0\n1 20 0\n".toList) (fun _ => (0, 0, 0)) 3
      = some { flights := [{ id := 1, capacity := 10, reserved := 0 },
                           { id := 1, capacity := 20, reserved := 0 }] } ∧
    (FlightManager.saveToFile
        { flights := [{ id := 1, capacity := 10, reserved := 0 },
                      { id := 1, capacity := 20, reserved := 0 }] })
      = "1 10 0\n1 20 0\n".toList := by
  decide

/-! ## Capacity of a flight during its life -/

/-- A call other than `deleteFlight id` keeps a record with this id in the registry and
keeps the capacity of every record with this id. -/
theorem FlightManager.exec_keeps_capacity (m : FlightManager) (x : Command) (id K : Int)
    (hx : x ≠ Command.deleteFlight id)
    (hex : ∃ g ∈ m.flights, g.id = id)
    (hcap : ∀ g ∈ m.flights, g.id = id → g.capacity = K) :
    (∃ g ∈ (m.exec x).flights, g.id = id) ∧
    ∀ g ∈ (m.exec x).flights, g.id = id → g.capacity = K := by
  have hrepl : ∀ (pre post : List FlightBooking) (f f' : FlightBooking),
      m.flights = pre ++ f :: post → f'.id = f.id → f'.capacity = f.capacity →
      (∃ g ∈ pre ++ f' :: post, g.id = id) ∧
      ∀ g ∈ pre ++ f' :: post, g.id = id → g.capacity = K := by
    intro pre post f f' h1 hid hcp
    rw [h1] at hex hcap
    constructor
    · obtain ⟨g, hg, hgid⟩ := hex
      simp only [List.mem_append, List.mem_cons] at hg
      rcases hg with hg | rfl | hg
      · exact ⟨g, by simp [hg], hgid⟩
      · exact ⟨f', by simp, by rw [hid, hgid]⟩
      · exact ⟨g, by simp [hg], hgid⟩
    · intro g hg hgid
      simp only [List.mem_append, List.mem_cons] at hg
      rcases hg with hg | rfl | hg
      · exact hcap g (by simp [hg]) hgid
      · rw [hcp]; exact hcap f (by simp) (by rw [← hid, hgid])
      · exact hcap g (by simp [hg]) hgid
  cases x with
  | createFlight id' c' =>
    simp only [FlightManager.exec]
    rcases FlightManager.createFlight_cases m id' c' with ⟨-, h2⟩ | ⟨h1, h2⟩
    · rw [h2]; exact ⟨hex, hcap⟩
    · rw [h2]
      simp only
      constructor
      · obtain ⟨g, hg, hgid⟩ := hex
        exact ⟨g, by simp [hg], hgid⟩
      · intro g hg hgid
        simp only [List.mem_append, List.mem_singleton] at hg
        rcases hg with hg | rfl
        · exact hcap g hg hgid
        · obtain ⟨g', hg', hgid'⟩ := hex
          rw [FlightBooking.new_id] at hgid
          exact absurd (hgid'.trans hgid.symm) (h1 g' hg')
  | deleteFlight id' =>
    have hne : id' ≠ id := fun h => hx (by rw [h])
    simp only [FlightManager.exec]
    rcases FlightManager.deleteFlight_cases m id' with ⟨-, h2⟩ | ⟨pre, f, post, h1, -, hf, h4⟩
    · rw [h2]; exact ⟨hex, hcap⟩
    · rw [h4]
      simp only
      rw [h1] at hex hcap
      constructor
      · obtain ⟨g, hg, hgid⟩ := hex
        simp only [List.mem_append, List.mem_cons] at hg
        rcases hg with hg | rfl | hg
        · exact ⟨g, by simp [hg], hgid⟩
        · exact absurd (hf.symm.trans hgid) hne
        · exact ⟨g, by simp [hg], hgid⟩
      · intro g hg hgid
        simp only [List.mem_append] at hg
        rcases hg with hg | hg
        · exact hcap g (by simp [hg]) hgid
        · exact hcap g (by simp [hg]) hgid
  | reserveSeats id' seats =>
    simp only [FlightManager.exec]
    rcases FlightManager.reserveSeats_cases m id' seats with
      ⟨-, h2⟩ | ⟨pre, f, post, h1, -, -, h4⟩
    · rw [h2]; exact ⟨hex, hcap⟩
    · rw [h4]
      exact hrepl pre post f _ h1 (FlightBooking.reserveSeats_frame f seats).1
        (FlightBooking.reserveSeats_frame f seats).2
  | cancelSeats id' seats =>
    simp only [FlightManager.exec]
    rcases FlightManager.cancelSeats_cases m id' seats with
      ⟨-, h2⟩ | ⟨pre, f, post, h1, -, -, h4⟩
    · rw [h2]; exact ⟨hex, hcap⟩
    · rw [h4]
      exact hrepl pre post f _ h1 (FlightBooking.cancelSeats_frame f seats).1
        (FlightBooking.cancelSeats_frame f seats).2

theorem FlightManager.run_keeps_capacity (cs : List Command) (m : FlightManager) (id K : Int)
    (hcs : ∀ x ∈ cs, x ≠ Command.deleteFlight id)
    (hex : ∃ g ∈ m.flights, g.id = id)
    (hcap : ∀ g ∈ m.flights, g.id = id → g.capacity = K) :
    (∃ g ∈ (m.run cs).flights, g.id = id) ∧
    ∀ g ∈ (m.run cs).flights, g.id = id → g.capacity = K := by
  induction cs generalizing m with
  | nil => exact ⟨hex, hcap⟩
  | cons x rest ih =>
    obtain ⟨h1, h2⟩ := FlightManager.exec_keeps_capacity m x id K (hcs x (by simp)) hex hcap
    exact ih (m.exec x) (fun y hy => hcs y (by simp [hy])) h1 h2

/-- C15: `reserveSeats` and `cancelSeats` on a record never change its id or capacity,
whatever they return; and in the registry, after `createFlight id c` of a new id and any
sequence of calls that does not delete this id, the flight is present and its capacity is
`max c 0`. -/
theorem FlightManager.capacity_immutable (f : FlightBooking) (n : Int) (m : FlightManager)
    (id c : Int) (cs : List Command)
    (hfresh : ∀ g ∈ m.flights, g.id ≠ id)
    (hcs : ∀ x ∈ cs, x ≠ Command.deleteFlight id) :
    ((f.reserveSeats n).2.id = f.id ∧ (f.reserveSeats n).2.capacity = f.capacity) ∧
    ((f.cancelSeats n).2.id = f.id ∧ (f.cancelSeats n).2.capacity = f.capacity) ∧
    (∃ g ∈ ((m.createFlight id c).2.run cs).flights, g.id = id) ∧
    ∀ g ∈ ((m.createFlight id c).2.run cs).flights, g.id = id → g.capacity = max c 0 := by
  refine ⟨FlightBooking.reserveSeats_frame f n, FlightBooking.cancelSeats_frame f n, ?_⟩
  rw [FlightManager.createFlight_fresh m id c hfresh]
  apply FlightManager.run_keeps_capacity cs _ id (max c 0) hcs
  · exact ⟨FlightBooking.new id c 0, by simp, FlightBooking.new_id id c 0⟩
  · intro g hg hgid
    simp only [List.mem_append, List.mem_singleton] at hg
    rcases hg with hg | rfl
    · exact absurd hgid (hfresh g hg)
    · exact FlightBooking.new_capacity id c 0

theorem FlightManager.capacity_immutable_witness :
    (((FlightBooking.mk 4 10 2).reserveSeats 3).2.id = 4 ∧
      ((FlightBooking.mk 4 10 2).reserveSeats 3).2.capacity = 10) ∧
    (((FlightBooking.mk 4 10 2).cancelSeats 3).2.id = 4 ∧
      ((FlightBooking.mk 4 10 2).cancelSeats 3).2.capacity = 10) ∧
    (∃ g ∈ (((FlightManager.mk [FlightBooking.mk 4 10 2]).createFlight 9 (-5)).2.run
        [Command.reserveSeats 9 1, Command.deleteFlight 4, Command.createFlight 9 70,
         Command.cancelSeats 9 1]).flights, g.id = 9) ∧
    ∀ g ∈ (((FlightManager.mk [FlightBooking.mk 4 10 2]).createFlight 9 (-5)).2.run
        [Command.reserveSeats 9 1, Command.deleteFlight 4, Command.createFlight 9 70,
         Command.cancelSeats 9 1]).flights, g.id = 9 → g.capacity = max (-5) 0 :=
  FlightManager.capacity_immutable (FlightBooking.mk 4 10 2) 3
    (FlightManager.mk [FlightBooking.mk 4 10 2]) 9 (-5)
    [Command.reserveSeats 9 1, Command.deleteFlight 4, Command.createFlight 9 70,
     Command.cancelSeats 9 1]
    (by decide) (by simp)

/-! ## The constructor on its own outputs -/

/-- The constructor is idempotent on its own outputs, also where a product wraps around. -/
theorem FlightBooking.new_new (i c r : Int) :
    FlightBooking.new (FlightBooking.new i c r).id (FlightBooking.new i c r).capacity
        (FlightBooking.new i c r).reserved
      = FlightBooking.new i c r := by
  have h0 : wrap32 0 = 0 := by decide
  have hW := wrap32_inInt32 (105 * (if c > 0 then c else 0))
  generalize hWd : wrap32 (105 * (if c > 0 then c else 0)) = W at hW
  have hcc : (if (if c > 0 then c else 0) > 0 then (if c > 0 then c else 0) else 0)
      = (if c > 0 then c else 0) := by
    split_ifs <;> omega
  have hrr : (if (if r > 0 then r else 0) > 0 then (if r > 0 then r else 0) else 0)
      = (if r > 0 then r else 0) := by
    split_ifs <;> omega
  unfold FlightBooking.new
  simp only [hWd]
  by_cases ht : wrap32 (100 * (if r > 0 then r else 0)) > W
  · simp only [ht, if_true, hcc, hWd]
    by_cases hpos : 0 ≤ W
    · have hq : W.tdiv 100 = W / 100 := Int.tdiv_eq_ediv hpos (by norm_num)
      unfold InInt32 at hW
      have hq0 : 0 ≤ W / 100 := by omega
      have hclamp : (if W.tdiv 100 > 0 then W.tdiv 100 else 0) = W / 100 := by
        rw [hq]; split_ifs <;> omega
      have hin : InInt32 (100 * (W / 100)) := by unfold InInt32; omega
      rw [hclamp, wrap32_of_inInt32 _ hin, if_neg (by omega), hq]
    · have hq : W.tdiv 100 ≤ 0 := tdiv_hundred_nonpos W (by omega)
      have hclamp : (if W.tdiv 100 > 0 then W.tdiv 100 else 0) = 0 := by
        rw [if_neg (by omega)]
      rw [hclamp, mul_zero, h0, if_pos (by omega)]
  · simp only [ht, if_false, hcc, hrr, hWd]

/-! ## Where wrap-around breaks the overbooking ceiling -/

/-- C1 fails on the code: `createFlight(1, 1); reserveSeats(1, 42949673)` on the empty
registry leaves the record `(1, 1, 42949673)`, whose `100 * reserved` is above
`105 * capacity`, and `createFlight(1, 30000000)` leaves `(1, 30000000, -11449672)`, whose
`reserved` is negative. -/
theorem FlightManager.overbooking_invariant_broken :
    (FlightManager.empty.run
        [Command.createFlight 1 1, Command.reserveSeats 1 42949673]).flights
      = [{ id := 1, capacity := 1, reserved := 42949673 }] ∧
    (∀ f ∈ (FlightManager.empty.run
        [Command.createFlight 1 1, Command.reserveSeats 1 42949673]).flights,
      100 * f.reserved > 105 * f.capacity) ∧
    (FlightManager.empty.run [Command.createFlight 1 30000000]).flights
      = [{ id := 1, capacity := 30000000, reserved := -11449672 }] ∧
    (∀ f ∈ (FlightManager.empty.run [Command.createFlight 1 30000000]).flights,
      f.reserved < 0) := by
  decide

/-- C11 fails on the code: on the flight freshly created by `createFlight(1, 1)` the call
`reserveSeats(1, 42949673)` succeeds although `42949673 > floor(105 * 1 / 100) = 1`; and on
the flight freshly created by `createFlight(1, 30000000)` the call `reserveSeats(1, 1)` is
rejected although `1 ≤ 1 ≤ floor(105 * 30000000 / 100)`. -/
theorem FlightManager.ceiling_boundary_broken :
    ((FlightManager.empty.createFlight 1 1).2.reserveSeats 1 42949673).1 = Outcome.success ∧
    (105 * 1 : Int).fdiv 100 < 42949673 ∧
    ((FlightManager.empty.createFlight 1 30000000).2.reserveSeats 1 1).1 = Outcome.rejected ∧
    ((1 : Int) ≤ 1 ∧ (1 : Int) ≤ (105 * 30000000 : Int).fdiv 100) := by
  decide

/-- C12 fails on the code: on the flight created by `createFlight(2, 0)`, stored as
`(2, 0, 0)`, the call `reserveSeats(2, 21474837)` succeeds and leaves `reserved = 21474837`,
because `100 * 21474837` wraps around to a negative number and the test against
`105 * 0` passes. -/
theorem FlightManager.zero_capacity_reserves :
    (FlightManager.empty.createFlight 2 0).2.flights
      = [{ id := 2, capacity := 0, reserved := 0 }] ∧
    (FlightManager.empty.createFlight 2 0).2.reserveSeats 2 21474837
      = (Outcome.success, { flights := [{ id := 2, capacity := 0, reserved := 21474837 }] }) ∧
    wrap32 (100 * 21474837) = -2147483596 := by
  decide

/-- C16 fails on the code: the record `(1, 30000000, 5)` has `capacity ≥ 0`, `reserved ≥ 0`
and `100 * reserved ≤ 105 * capacity`, yet the constructor turns it into
`(1, 30000000, -11449672)`, because `105 * capacity` wraps around to a negative number. -/
theorem FlightBooking.new_not_fixed :
    ((0 : Int) ≤ (FlightBooking.mk 1 30000000 5).capacity ∧
      0 ≤ (FlightBooking.mk 1 30000000 5).reserved ∧
      100 * (FlightBooking.mk 1 30000000 5).reserved
        ≤ 105 * (FlightBooking.mk 1 30000000 5).capacity) ∧
    FlightBooking.new (FlightBooking.mk 1 30000000 5).getID
        (FlightBooking.mk 1 30000000 5).getCapacity (FlightBooking.mk 1 30000000 5).getReserved
      = { id := 1, capacity := 30000000, reserved := -11449672 } := by
  decide

/-- C17 fails on the code: on the record `(1, 100, 5)` the call `reserveSeats(2147483647)`
returns true, because `reserved + n` wraps around to `-2147483644` and the product to `400`,
and the `cancelSeats(2147483647)` that follows returns false and leaves
`(1, 100, -2147483644)`. -/
theorem FlightBooking.reserve_then_cancel_refused :
    (0 : Int) ≤ (FlightBooking.mk 1 100 5).reserved ∧
    (FlightBooking.mk 1 100 5).reserveSeats 2147483647
      = (true, { id := 1, capacity := 100, reserved := -2147483644 }) ∧
    ((FlightBooking.mk 1 100 5).reserveSeats 2147483647).2.cancelSeats 2147483647
      = (false, { id := 1, capacity := 100, reserved := -2147483644 }) ∧
    (wrap32 (5 + 2147483647) = -2147483644 ∧ wrap32 (100 * -2147483644) = 400) := by
  decide

/-- C18 fails on the code: on the record `(1, 1, 0)`, which is within the ceiling, the
32-bit `reserveSeats(42949673)` returns true, because `100 * 42949673` wraps around to `4`,
and leaves `reserved = 42949673` with `capacity = 1`. -/
theorem FlightBooking.reserveSeats32_overbooks :
    (FlightManager.empty.createFlight 1 1).2.flights
      = [{ id := 1, capacity := 1, reserved := 0 }] ∧
    InInt32 42949673 ∧
    (0 ≤ (FlightBooking.mk 1 1 0).reserved ∧
      100 * (FlightBooking.mk 1 1 0).reserved ≤ 105 * (FlightBooking.mk 1 1 0).capacity) ∧
    wrap32 (100 * 42949673) = 4 ∧
    (FlightBooking.mk 1 1 0).reserveSeats 42949673
      = (true, { id := 1, capacity := 1, reserved := 42949673 }) ∧
    100 * ((FlightBooking.mk 1 1 0).reserveSeats 42949673).2.reserved
      > 105 * ((FlightBooking.mk 1 1 0).reserveSeats 42949673).2.capacity := by
  decide

/-! ## The overflow-free envelope -/

theorem isDigit_digitChar (d : Nat) (h : d < 10) : isDigit (digitChar d) = true := by
  interval_cases d <;> decide

theorem toNat_digitChar (d : Nat) (h : d < 10) : (digitChar d).toNat - 48 = d := by
  interval_cases d <;> decide

theorem digitsValue_append (ds : List Char) (c : Char) :
    digitsValue (ds ++ [c]) = 10 * digitsValue ds + (c.toNat - 48) := by
  simp [digitsValue, List.foldl_append]

theorem putNatAux_spec (fuel n : Nat) (h : n < fuel) :
    putNatAux fuel n ≠ [] ∧ (∀ x ∈ putNatAux fuel n, isDigit x = true) ∧
      digitsValue (putNatAux fuel n) = n := by
  induction fuel generalizing n with
  | zero => omega
  | succ fuel ih =>
    unfold putNatAux
    by_cases hn : n < 10
    · rw [if_pos hn]
      refine ⟨by simp, ?_, ?_⟩
      · intro x hx
        simp only [List.mem_singleton] at hx
        rw [hx]; exact isDigit_digitChar n hn
      · have := digitsValue_append [] (digitChar n)
        simp only [List.nil_append] at this
        rw [this, toNat_digitChar n hn]
        simp [digitsValue]
    · rw [if_neg hn]
      obtain ⟨-, h2, h3⟩ := ih (n / 10) (by omega)
      refine ⟨by simp, ?_, ?_⟩
      · intro x hx
        simp only [List.mem_append, List.mem_singleton] at hx
        rcases hx with hx | rfl
        · exact h2 x hx
        · exact isDigit_digitChar _ (Nat.mod_lt _ (by norm_num))
      · rw [digitsValue_append, h3, toNat_digitChar _ (Nat.mod_lt _ (by norm_num))]
        omega

theorem putNat_spec (n : Nat) :
    putNat n ≠ [] ∧ (∀ x ∈ putNat n, isDigit x = true) ∧ digitsValue (putNat n) = n :=
  putNatAux_spec (n + 1) n (Nat.lt_succ_self n)

theorem takeWhile_isDigit_append (ds rest : List Char) (c : Char)
    (hds : ∀ x ∈ ds, isDigit x = true) (hc : isDigit c = false) :
    (ds ++ c :: rest).takeWhile isDigit = ds ∧ (ds ++ c :: rest).dropWhile isDigit = c :: rest := by
  induction ds with
  | nil => simp [List.takeWhile, List.dropWhile, hc]
  | cons d ds ih =>
    have hd : isDigit d = true := hds d (by simp)
    have := ih (fun x hx => hds x (by simp [hx]))
    simp [List.takeWhile, List.dropWhile, hd, this]

theorem skipSpace_append (ws text : List Char) (hws : ∀ x ∈ ws, isSpace x = true) :
    skipSpace (ws ++ text) = skipSpace text := by
  induction ws with
  | nil => rfl
  | cons w ws ih =>
    have hw : isSpace w = true := hws w (by simp)
    simp only [List.cons_append, skipSpace, hw, if_true]
    exact ih (fun x hx => hws x (by simp [hx]))

theorem isDigit_not_special (c : Char) (h : isDigit c = true) :
    isSpace c = false ∧ c ≠ '-' ∧ c ≠ '+' := by
  refine ⟨?_, ?_, ?_⟩
  · cases hs : isSpace c with
    | false => rfl
    | true =>
      exfalso
      simp only [isSpace, Bool.or_eq_true, decide_eq_true_eq] at hs
      rcases hs with ((((rfl | rfl) | rfl) | rfl) | rfl) | rfl <;> revert h <;> decide
  · rintro rfl; revert h; decide
  · rintro rfl; revert h; decide

/-- Reading back what `out << n` wrote for a 32-bit `n`: on a good stream holding
whitespace, the characters of `n` and then a character that is not a digit, `in >> x`
stores `n` in `x`, stops before that character and leaves the stream good. -/
theorem IStream.extractInt_putInt (n cur : Int) (ws rest : List Char) (c : Char)
    (hn : InInt32 n) (hws : ∀ x ∈ ws, isSpace x = true) (hc : isDigit c = false) :
    IStream.extractInt { buf := ws ++ (putInt n ++ c :: rest), eofbit := false, failbit := false }
        cur
      = ({ buf := c :: rest, eofbit := false, failbit := false }, n) := by
  unfold InInt32 at hn
  unfold IStream.extractInt
  simp only [IStream.good, Bool.not_false, Bool.and_self, Bool.not_true, Bool.false_eq_true,
    if_false]
  rw [skipSpace_append ws _ hws]
  cases n with
  | ofNat k =>
    obtain ⟨h1, h2, h3⟩ := putNat_spec k
    have hk1 : ¬((k : Int) > 2147483647) := by
      have : Int.ofNat k = (k : Int) := rfl
      omega
    have hk2 : ¬((k : Int) < -2147483648) := by omega
    simp only [putInt]
    rcases hk : putNat k with _ | ⟨d, ds⟩
    · exact absurd hk h1
    · rw [hk] at h2 h3
      have hd : isDigit d = true := h2 d (by simp)
      obtain ⟨hd1, hd2, hd3⟩ := isDigit_not_special d hd
      obtain ⟨ht, hdrop⟩ := takeWhile_isDigit_append (d :: ds) rest c h2 hc
      simp only [List.cons_append] at ht hdrop
      simp only [List.cons_append, skipSpace, hd1, Bool.false_eq_true, if_false, hd2, hd3,
        or_self, decide_False, List.append_eq, ht, hdrop, List.isEmpty_cons, h3, hk1, hk2]
      rfl
  | negSucc k =>
    obtain ⟨h1, h2, h3⟩ := putNat_spec (k + 1)
    obtain ⟨ht, hdrop⟩ := takeWhile_isDigit_append (putNat (k + 1)) rest c h2 hc
    have hminus : isSpace '-' = false := by decide
    have hne : (putNat (k + 1)).isEmpty = false := by
      cases hp : putNat (k + 1) with
      | nil => exact absurd hp h1
      | cons _ _ => rfl
    have hv : Int.negSucc k = -((k + 1 : Nat) : Int) := rfl
    have hk1 : ¬(-((k + 1 : Nat) : Int) > 2147483647) := by omega
    have hk2 : ¬(-((k + 1 : Nat) : Int) < -2147483648) := by omega
    simp only [putInt, List.cons_append, skipSpace, hminus, Bool.false_eq_true, if_false,
      true_or, if_true, decide_True, List.append_eq, ht, hdrop, hne, List.isEmpty_cons, h3,
      hk1, hk2]
    rfl

/-! ## Saving and loading -/

theorem FlightBooking.saveToFile_eq (f : FlightBooking) (out : List Char) :
    f.saveToFile out = out ++ f.saveToFile [] := by
  simp [FlightBooking.saveToFile]

theorem FlightManager.saveToFile_foldl (flights : List FlightBooking) (out : List Char) :
    flights.foldl (fun out f => f.saveToFile out) out
      = out ++ flights.foldl (fun out f => f.saveToFile out) [] := by
  induction flights generalizing out with
  | nil => simp
  | cons f rest ih =>
    simp only [List.foldl_cons]
    rw [ih (f.saveToFile out), ih (f.saveToFile []), FlightBooking.saveToFile_eq f out]
    simp

theorem FlightManager.saveToFile_cons (f : FlightBooking) (rest : List FlightBooking) :
    FlightManager.saveToFile { flights := f :: rest }
      = f.saveToFile [] ++ FlightManager.saveToFile { flights := rest } := by
  simp only [FlightManager.saveToFile, List.foldl_cons]
  exact FlightManager.saveToFile_foldl rest _

/-- Reading back one saved line of a record with 32-bit fields: the record is rebuilt by the constructor from the three
saved fields and the stream stops, still good, before the newline. -/
theorem FlightBooking.loadFromFile_line (f : FlightBooking) (ws rest : List Char)
    (u : Int × Int × Int) (hf : InInt32 f.id ∧ InInt32 f.capacity ∧ InInt32 f.reserved)
    (hws : ∀ x ∈ ws, isSpace x = true) :
    FlightBooking.loadFromFile
        { buf := ws ++ (f.saveToFile [] ++ rest), eofbit := false, failbit := false } u
      = ({ buf := '\n' :: rest, eofbit := false, failbit := false },
          FlightBooking.new f.id f.capacity f.reserved) := by
  have hbuf : ws ++ (f.saveToFile [] ++ rest)
      = ws ++ (putInt f.id ++ ' ' ::
          ([] ++ (putInt f.capacity ++ ' ' :: ([] ++ (putInt f.reserved ++ '\n' :: rest))))) := by
    simp [FlightBooking.saveToFile]
  have hsp : ∀ x ∈ [' '], isSpace x = true := by
    intro x hx
    simp only [List.mem_singleton] at hx
    rw [hx]; decide
  unfold FlightBooking.loadFromFile
  rw [hbuf]
  simp only [IStream.extractInt_putInt f.id u.1 ws _ ' ' hf.1 hws (by decide)]
  have e1 : ∀ t : List Char, ' ' :: ([] ++ t) = [' '] ++ t := fun t => rfl
  rw [e1]
  simp only [IStream.extractInt_putInt f.capacity u.2.1 [' '] _ ' ' hf.2.1 hsp (by decide)]
  rw [e1]
  simp only [IStream.extractInt_putInt f.reserved u.2.2 [' '] _ '\n' hf.2.2 hsp (by decide)]

/-- An attempt to read a record when only whitespace is left sets `eofbit` and builds the
record from the uninitialised locals. -/
theorem FlightBooking.loadFromFile_exhausted (ws : List Char) (u : Int × Int × Int)
    (hws : ∀ x ∈ ws, isSpace x = true) :
    FlightBooking.loadFromFile { buf := ws, eofbit := false, failbit := false } u
      = ({ buf := [], eofbit := true, failbit := true }, FlightBooking.new u.1 u.2.1 u.2.2) := by
  have h : skipSpace ws = [] := by
    have := skipSpace_append ws [] hws
    simpa [skipSpace] using this
  simp [FlightBooking.loadFromFile, IStream.extractInt, IStream.good, h]

/-- Loading a saved file of records with 32-bit fields: with `fuel` beyond the number of
saved records, the loop returns;
it appends, in order, the constructor's rebuild of every saved record whose id is not `0`,
and then the record built from the uninitialised locals by the read attempt at the end of
the input, unless that one has id `0`. -/
theorem FlightManager.loadLoop_saveToFile (uninit : Nat → Int × Int × Int)
    (flights : List FlightBooking) (extra k : Nat) (ws : List Char) (acc : List FlightBooking)
    (hfl : ∀ f ∈ flights, InInt32 f.id ∧ InInt32 f.capacity ∧ InInt32 f.reserved)
    (hws : ∀ x ∈ ws, isSpace x = true) :
    FlightManager.loadLoop uninit (flights.length + 1 + extra) k
        { buf := ws ++ FlightManager.saveToFile { flights := flights },
          eofbit := false, failbit := false } acc
      = some (acc
          ++ (flights.map (fun f => FlightBooking.new f.id f.capacity f.reserved)).filter
              (fun f => decide (f.id ≠ 0))
          ++ [FlightBooking.new (uninit (k + flights.length)).1
                (uninit (k + flights.length)).2.1 (uninit (k + flights.length)).2.2].filter
              (fun f => decide (f.id ≠ 0))) := by
  induction flights generalizing k ws acc with
  | nil =>
    have e : ws ++ FlightManager.saveToFile { flights := [] } = ws := by
      simp [FlightManager.saveToFile]
    have e2 : ([] : List FlightBooking).length + 1 + extra = extra + 1 := by simp; omega
    rw [e, e2]
    simp only [FlightManager.loadLoop, IStream.eof, Bool.false_eq_true, if_false,
      FlightBooking.loadFromFile_exhausted ws (uninit k) hws, FlightBooking.getID]
    have hend : ∀ a : List FlightBooking,
        FlightManager.loadLoop uninit extra (k + 1)
          { buf := [], eofbit := true, failbit := true } a = some a := by
      intro a
      cases extra <;> simp [FlightManager.loadLoop, IStream.eof]
    rw [hend]
    by_cases h0 : (FlightBooking.new (uninit k).1 (uninit k).2.1 (uninit k).2.2).id = 0
    · simp [h0]
    · simp [h0]
  | cons f rest ih =>
    have e2 : (f :: rest).length + 1 + extra = (rest.length + 1 + extra) + 1 := by
      simp only [List.length_cons]; omega
    have hnl : ∀ x ∈ ['\n'], isSpace x = true := by
      intro x hx
      simp only [List.mem_singleton] at hx
      rw [hx]; decide
    rw [e2, FlightManager.saveToFile_cons]
    simp only [FlightManager.loadLoop, IStream.eof, Bool.false_eq_true, if_false,
      FlightBooking.loadFromFile_line f ws _ (uninit k) (hfl f (by simp)) hws,
      FlightBooking.getID]
    have e3 : ∀ t : List Char, '\n' :: t = ['\n'] ++ t := fun t => rfl
    rw [e3, ih (k + 1) ['\n'] _ (fun x hx => hfl x (by simp [hx])) hnl]
    have e4 : k + 1 + rest.length = k + (f :: rest).length := by
      simp only [List.length_cons]; omega
    rw [e4]
    by_cases h0 : (FlightBooking.new f.id f.capacity f.reserved).id = 0
    · simp [h0]
    · simp [h0]

/-- C9 fails on the code. After `createFlight(1, 100)` the registry is `[(1, 100, 0)]` and
`saveToFile` writes the line "1 100 0"; `loadFromFile` reads that record, finds `eof()`
still false, runs the loop body once more, extracts nothing and appends the record built
from its uninitialised locals (here still holding `1 100 0`), so the loaded registry has
two records. After `createFlight(0, 10)` the saved record is dropped on loading by the
`getID() != 0` filter. After `createFlight(1, 100); reserveSeats(1, 5);
reserveSeats(1, 2147483647)` the registry is `[(1, 100, -2147483644)]` and reloads as
`[(1, 100, 0)]`. -/
theorem FlightManager.save_load_gains_record :
    ((FlightManager.empty.run [Command.createFlight 1 100]).flights
        = [{ id := 1, capacity := 100, reserved := 0 }] ∧
      (FlightManager.empty.run [Command.createFlight 1 100]).saveToFile = "1 100 0\n".toList ∧
      FlightManager.empty.loadFromFile
          (some (FlightManager.empty.run [Command.createFlight 1 100]).saveToFile)
          (fun _ => (1, 100, 0)) 2
        = some { flights := [{ id := 1, capacity := 100, reserved := 0 },
                             { id := 1, capacity := 100, reserved := 0 }] }) ∧
    ((FlightManager.empty.run [Command.createFlight 0 10]).flights
        = [{ id := 0, capacity := 10, reserved := 0 }] ∧
      FlightManager.empty.loadFromFile
          (some (FlightManager.empty.run [Command.createFlight 0 10]).saveToFile)
          (fun _ => (0, 0, 0)) 2
        = some { flights := [] }) ∧
    ((FlightManager.empty.run [Command.createFlight 1 100, Command.reserveSeats 1 5,
          Command.reserveSeats 1 2147483647]).flights
        = [{ id := 1, capacity := 100, reserved := -2147483644 }] ∧
      FlightManager.empty.loadFromFile
          (some (FlightManager.empty.run [Command.createFlight 1 100, Command.reserveSeats 1 5,
            Command.reserveSeats 1 2147483647]).saveToFile)
          (fun _ => (0, 0, 0)) 2
        = some { flights := [{ id := 1, capacity := 100, reserved := 0 }] }) := by
  decide

end FlightSystem
